import Mathlib

/-!
Verification of the zoom-eventbrite-app pipeline against its specification.

The Python sources are shallowly embedded:
* pure functions become Lean functions over `String`/`List Char`;
* database tables (`youtube_videos`) become lists of records, with
  `query.filter_by(...).first()` becoming `List.find?`;
* network calls become oracle values supplied in an environment record
  (the services catch every exception internally and return `None`/`[]`,
  which the embedding renders as `Option`/empty lists);
* `datetime` values become `Int` seconds (so `timedelta(hours=h)` is
  `h * 3600`).
-/

namespace ZoomEB

/-! ## Title normalizer

`src/utils/helpers.py`, `normalize_title_for_matching` and
`src/models.py`, `YouTubeVideo.normalize_title`:

    if not title: return ''
    normalized = re.sub(r'[^\w\s]', '', title.lower())
    normalized = re.sub(r'\s+', ' ', normalized).strip()
    return normalized

Python's `\w` is letter, digit or underscore; `\s` is the six ASCII
whitespace characters (we model the ASCII fragment of both classes,
which is where every claim below lives). -/

/-- Python regex `\w` (ASCII fragment): letter, digit or underscore. -/
def pyIsWordChar (c : Char) : Bool :=
  c.isAlpha || c.isDigit || c = '_'

/-- Python regex `\s` (ASCII fragment): space, tab, newline, carriage
return, vertical tab, form feed. -/
def pyIsSpaceChar (c : Char) : Bool :=
  c = ' ' || c = '\t' || c = '\n' || c = '\r' || c = '\x0b' || c = '\x0c'

/-- `re.sub(r'\s+', ' ', s)`: each maximal run of whitespace becomes one
space.  The boolean argument records whether the previous character was
part of a whitespace run. -/
def collapseWsAux : Bool → List Char → List Char
  | _, [] => []
  | true, c :: rest =>
    if pyIsSpaceChar c then collapseWsAux true rest
    else c :: collapseWsAux false rest
  | false, c :: rest =>
    if pyIsSpaceChar c then ' ' :: collapseWsAux true rest
    else c :: collapseWsAux false rest

def collapseWs (l : List Char) : List Char := collapseWsAux false l

/-- `str.strip()` over a character list: drop leading whitespace. -/
def lstripChars (l : List Char) : List Char := l.dropWhile pyIsSpaceChar

/-- `str.strip()` over a character list: drop trailing whitespace. -/
def rstripChars (l : List Char) : List Char :=
  (l.reverse.dropWhile pyIsSpaceChar).reverse

def pyStrip (l : List Char) : List Char := rstripChars (lstripChars l)

/-- Python `str.upper()` (ASCII model). -/
def pyUpper (s : String) : String := String.mk (s.toList.map Char.toUpper)

/-- `normalize_title_for_matching` from `src/utils/helpers.py`. -/
def normalize_title_for_matching (title : String) : String :=
  if title = "" then ""
  else
    let lowered := title.toList.map Char.toLower
    let kept := lowered.filter (fun c => pyIsWordChar c || pyIsSpaceChar c)
    String.mk (pyStrip (collapseWs kept))

/-- `YouTubeVideo.normalize_title` from `src/models.py` (character for
character the same body as the helper). -/
def YouTubeVideo.normalize_title (title : String) : String :=
  if title = "" then ""
  else
    let lowered := title.toList.map Char.toLower
    let kept := lowered.filter (fun c => pyIsWordChar c || pyIsSpaceChar c)
    String.mk (pyStrip (collapseWs kept))

/-- The normalizer exactly as the spec sentence words it: strips every
character that is not a letter, digit, or whitespace (in particular it
would strip underscores, unlike Python's `\w`). -/
def normalizeSpecClaim (title : String) : String :=
  if title = "" then ""
  else
    let lowered := title.toList.map Char.toLower
    let kept := lowered.filter (fun c => c.isAlpha || c.isDigit || pyIsSpaceChar c)
    String.mk (pyStrip (collapseWs kept))

/-! An independent formulation of "collapse whitespace runs to a single
space and trim": split the kept characters into maximal whitespace-free
words and re-join them with single spaces.  Used as the specification
side of the amended C3. -/

/-- Maximal whitespace-free words of a character list (accumulator holds
the current word reversed). -/
def wordsAux : List Char → List Char → List (List Char)
  | cur, [] => if cur = [] then [] else [cur.reverse]
  | cur, c :: rest =>
    if pyIsSpaceChar c then
      if cur = [] then wordsAux [] rest else cur.reverse :: wordsAux [] rest
    else wordsAux (c :: cur) rest

/-- Join words with single spaces. -/
def joinWords : List (List Char) → List Char
  | [] => []
  | [w] => w
  | w :: x :: ws => w ++ ' ' :: joinWords (x :: ws)

/-- Spec-side normalizer for the amended C3: lower-case, keep letters,
digits, underscores and whitespace, then emit the whitespace-free words
joined by single spaces (equivalently: collapse whitespace runs and
trim). -/
def normalizeSpecAmended (title : String) : String :=
  if title = "" then ""
  else
    let lowered := title.toList.map Char.toLower
    let kept := lowered.filter (fun c => pyIsWordChar c || pyIsSpaceChar c)
    String.mk (joinWords (wordsAux [] kept))


/-! ## Data model for the YouTube video cache

`src/models.py` `YouTubeVideo` (the `youtube_videos` table) and
`src/services/youtube_service.py`.  Timestamps are `Int` seconds;
`timedelta(hours=h)` is `h * 3600`. -/

/-- A row of the `youtube_videos` table (`YouTubeVideo` in
`src/models.py`); fields not read by the code under verification
(`duration`, `view_count`, `privacy_status`) are omitted. -/
structure CachedVideo where
  youtube_video_id : String
  title : String
  title_normalized : String
  description : String
  published_at : Int
  channel_id : String
  last_updated : Int
deriving Repr, DecidableEq

/-- One item of a YouTube search response (`item['id']['videoId']` and
`item['snippet']`), with `publishedAt` already parsed to seconds and
`description` already defaulted to the empty string as
`snippet.get('description', '')` does. -/
structure SearchItem where
  videoId : String
  title : String
  description : String
  publishedAt : Int
  channelId : String
deriving Repr, DecidableEq

/-- The dictionary `check_existing_video` / `_search_youtube_for_title`
return on a hit. -/
structure FoundVideo where
  video_id : String
  title : String
  url : String
  published_at : Int
  cached : Bool
deriving Repr, DecidableEq

def videoUrl (videoId : String) : String :=
  "https://www.youtube.com/watch?v=" ++ videoId

/-- `Config` (`src/config.py`): the one flag the verified code branches
on. -/
structure Config where
  CHECK_EXISTING_VIDEOS : Bool
deriving Repr, DecidableEq

/-- Environment for `YouTubeService`: whether `get_service()` yields a
service, the outcome of `service.search().list(...).execute()` for a
given query (`Except.error` models a raised exception), the current
`datetime.utcnow()` and the `SystemSettings` row
`youtube_cache_hours`. -/
structure YTEnv where
  serviceAvailable : Bool
  search : String → Except String (List SearchItem)
  now : Int
  settingsCacheHours : Option Int

/-- `SystemSettings.get_value('youtube_cache_hours', 24)`. -/
def getCacheHours (env : YTEnv) : Int :=
  env.settingsCacheHours.getD 24

/-- `YouTubeVideo.query.filter_by(title_normalized=k).first()`. -/
def findCachedByNormTitle (cache : List CachedVideo) (k : String) :
    Option CachedVideo :=
  cache.find? (fun r => r.title_normalized = k)

/-- Replace the first element satisfying `p` by `f` of it (SQLAlchemy
`first()` + in-place field update + commit). -/
def replaceFirst (p : α → Bool) (f : α → α) : List α → List α
  | [] => []
  | x :: xs => if p x then f x :: xs else x :: replaceFirst p f xs

/-- `YouTubeService._cache_video` (src/services/youtube_service.py
lines 146-179): upsert keyed on `youtube_video_id`.  On update only
`title`, `title_normalized` (recomputed), `description` and
`last_updated` change; on insert a fresh row is appended. -/
def cacheVideo (cache : List CachedVideo) (item : SearchItem) (now : Int) :
    List CachedVideo :=
  if (cache.find? (fun r => r.youtube_video_id = item.videoId)).isSome then
    replaceFirst (fun r => r.youtube_video_id = item.videoId)
      (fun r =>
        { r with
          title := item.title
          title_normalized := YouTubeVideo.normalize_title item.title
          description := item.description
          last_updated := now }) cache
  else
    cache ++ [{ youtube_video_id := item.videoId
                title := item.title
                title_normalized := YouTubeVideo.normalize_title item.title
                description := item.description
                published_at := item.publishedAt
                channel_id := item.channelId
                last_updated := now }]

/-- `YouTubeService._search_youtube_for_title` (lines 94-144): returns
the first search result whose normalized title equals the normalized
query (caching it), `none` when the service is unavailable, when the
search raises, or when no result matches exactly.  Second component is
the cache after the call. -/
def searchYoutubeForTitle (env : YTEnv) (cache : List CachedVideo)
    (title : String) : Option FoundVideo × List CachedVideo :=
  if env.serviceAvailable then
    match env.search title with
    | .error _ => (none, cache)
    | .ok items =>
      let normalizedSearch := YouTubeVideo.normalize_title title
      match items.find?
          (fun it => YouTubeVideo.normalize_title it.title = normalizedSearch) with
      | some it =>
        (some { video_id := it.videoId
                title := it.title
                url := videoUrl it.videoId
                published_at := it.publishedAt
                cached := false },
         cacheVideo cache it env.now)
      | none => (none, cache)
  else (none, cache)

/-- Instrumented result of `check_existing_video`: the returned value,
whether the local cache was queried, whether the remote search ran, and
the cache after the call. -/
structure CheckOutcome where
  result : Option FoundVideo
  cacheConsulted : Bool
  remoteSearched : Bool
  cache : List CachedVideo
deriving Repr, DecidableEq

/-- `YouTubeService.check_existing_video` (lines 67-92).  Returns `none`
immediately when `CHECK_EXISTING_VIDEOS` is off; otherwise consults the
cache by normalized title, trusts an entry younger than the freshness
window (`last_updated + cache_hours` still in the future), and falls
through to the remote search when the entry is stale or missing. -/
def check_existing_video (cfg : Config) (env : YTEnv)
    (cache : List CachedVideo) (title : String) : CheckOutcome :=
  if cfg.CHECK_EXISTING_VIDEOS then
    match findCachedByNormTitle cache (YouTubeVideo.normalize_title title) with
    | some cached =>
      if env.now < cached.last_updated + getCacheHours env * 3600 then
        { result := some { video_id := cached.youtube_video_id
                           title := cached.title
                           url := videoUrl cached.youtube_video_id
                           published_at := cached.published_at
                           cached := true }
          cacheConsulted := true
          remoteSearched := false
          cache := cache }
      else
        { result := (searchYoutubeForTitle env cache title).1
          cacheConsulted := true, remoteSearched := true
          cache := (searchYoutubeForTitle env cache title).2 }
    | none =>
      { result := (searchYoutubeForTitle env cache title).1
        cacheConsulted := true, remoteSearched := true
        cache := (searchYoutubeForTitle env cache title).2 }
  else
    { result := none, cacheConsulted := false, remoteSearched := false
      cache := cache }

/-! ## Upload (`YouTubeService.upload_video`, lines 181-276) -/

/-- A successful `videos().insert(...).execute()` response: the new id
and the snippet echoed back (used for caching). -/
structure UploadOk where
  videoId : String
  snippetTitle : String
  snippetDescription : String
  snippetPublishedAt : Int
  snippetChannelId : String
deriving Repr, DecidableEq

/-- The dictionary `upload_video` returns. -/
structure UploadResult where
  success : Bool
  video_id : Option String
  error : Option String
  existing : Option FoundVideo
deriving Repr, DecidableEq

/-- The part of `upload_video` after the duplicate check: service
availability, then the insert call (`Except.error` models both the
`HttpError` and generic exception branches, carrying the formatted
error string); success caches the uploaded video. -/
def uploadVideoCore (env : YTEnv) (cache : List CachedVideo)
    (outcome : Except String UploadOk) : UploadResult × List CachedVideo :=
  if env.serviceAvailable then
    match outcome with
    | .error msg =>
      ({ success := false, video_id := none, error := some msg
         existing := none }, cache)
    | .ok okr =>
      let item : SearchItem :=
        { videoId := okr.videoId, title := okr.snippetTitle
          description := okr.snippetDescription
          publishedAt := okr.snippetPublishedAt
          channelId := okr.snippetChannelId }
      ({ success := true, video_id := some okr.videoId, error := none
         existing := none }, cacheVideo cache item env.now)
  else
    ({ success := false, video_id := none
       error := some "YouTube service not available", existing := none }, cache)

/-- `YouTubeService.upload_video`: duplicate check first (when
`check_existing`, the default), then the upload proper. -/
def upload_video (cfg : Config) (env : YTEnv) (cache : List CachedVideo)
    (title : String) (outcome : Except String UploadOk)
    (checkExisting : Bool) : UploadResult × List CachedVideo :=
  if checkExisting then
    match (check_existing_video cfg env cache title).result with
    | some ex =>
      ({ success := false, video_id := none
         error := some "Video already exists", existing := some ex },
       (check_existing_video cfg env cache title).cache)
    | none =>
      uploadVideoCore env (check_existing_video cfg env cache title).cache outcome
  else uploadVideoCore env cache outcome

/-! ## Pipeline orchestrator (`process_matches_background`,
`src/app_prod.py` lines 107-204)

The in-memory `processing_status[session_id]` dictionary becomes
`JobState`; a run is embedded as the ordered list of states after each
mutation (the snapshots a poller can observe), plus instrumentation
recording which external actions each match performed.  The services
catch their own exceptions (returning `None`/`[]`), so the generic
`except` branch of the loop is unreachable in this model. -/

structure JobState where
  status : String
  current : Nat
  total : Nat
  messages : List String
deriving Repr, DecidableEq

/-- A Zoom recording file (`rec_file` dictionary): only `file_type` is
branched on. -/
structure RecFile where
  file_type : String
  download_url : String
deriving Repr, DecidableEq

/-- One confirmed match together with the oracle outcomes of the
network calls made for it: `get_recording_files` (errors return `[]`),
`download_video` (errors return `None`) and the upload insert call. -/
structure MatchCase where
  meetingId : String
  meetingStartTime : String
  nameText : Option String
  recordingFiles : List RecFile
  downloadResult : Option String
  uploadOutcome : Except String UploadOk

/-- Run-wide environment: the Zoom OAuth token
(`zoom_service.get_access_token()`, `none` models failure) and the
YouTube service state. -/
structure RunEnv where
  zoomToken : Option String
  yt : YTEnv

/-- `eventbrite_event.get('name', {}).get('text', 'Untitled')`. -/
def eventTitleOf (m : MatchCase) : String := m.nameText.getD "Untitled"

/-- What one iteration of the match loop did: the messages it appended,
whether `zoom_service.download_video` was invoked, whether
`youtube_service.upload_video` was invoked, and the cache afterwards. -/
structure StepResult where
  messages : List String
  downloadAttempted : Bool
  uploadAttempted : Bool
  cache : List CachedVideo
deriving Repr, DecidableEq

/-- The file-discovery / download / upload part of one loop iteration
(`src/app_prod.py` lines 156-197). -/
def processFiles (cfg : Config) (env : RunEnv) (cache : List CachedVideo)
    (m : MatchCase) (event_title : String) (msgs : List String) : StepResult :=
  if m.recordingFiles.isEmpty then
    ⟨msgs ++ ["No recording files found for: " ++ event_title], false, false, cache⟩
  else
    match m.recordingFiles.find? (fun f => pyUpper f.file_type = "MP4") with
    | none => ⟨msgs ++ ["No MP4 video found for: " ++ event_title], false, false, cache⟩
    | some _ =>
      match m.downloadResult with
      | none =>
        ⟨msgs ++ ["Failed to download video for: " ++ event_title], true, false, cache⟩
      | some _ =>
        if env.yt.serviceAvailable then
          if (upload_video cfg env.yt cache event_title m.uploadOutcome true).1.success then
            ⟨msgs ++ ["Downloaded: " ++ event_title]
               ++ ["Uploaded to YouTube: " ++ event_title ++ " ("
                   ++ (upload_video cfg env.yt cache event_title m.uploadOutcome true).1.video_id.getD ""
                   ++ ")"],
             true, true,
             (upload_video cfg env.yt cache event_title m.uploadOutcome true).2⟩
          else
            ⟨msgs ++ ["Downloaded: " ++ event_title]
               ++ ["YouTube upload failed for " ++ event_title ++ ": "
                   ++ (upload_video cfg env.yt cache event_title m.uploadOutcome true).1.error.getD "Unknown error"],
             true, true,
             (upload_video cfg env.yt cache event_title m.uploadOutcome true).2⟩
        else ⟨msgs ++ ["Downloaded: " ++ event_title], true, false, cache⟩

/-- One iteration of the match loop (lines 141-197): the duplicate
check (only when YouTube is authenticated), then file handling. -/
def processOneMatch (cfg : Config) (env : RunEnv) (cache : List CachedVideo)
    (m : MatchCase) : StepResult :=
  if env.yt.serviceAvailable then
    match (check_existing_video cfg env.yt cache (eventTitleOf m)).result with
    | some existing =>
      ⟨["Processing: " ++ eventTitleOf m]
         ++ ["Video already exists on YouTube: " ++ eventTitleOf m ++ " ("
             ++ existing.video_id ++ ")"],
       false, false,
       (check_existing_video cfg env.yt cache (eventTitleOf m)).cache⟩
    | none =>
      processFiles cfg env (check_existing_video cfg env.yt cache (eventTitleOf m)).cache
        m (eventTitleOf m) ["Processing: " ++ eventTitleOf m]
  else processFiles cfg env cache m (eventTitleOf m) ["Processing: " ++ eventTitleOf m]

/-- Job states observed while a list of messages is appended one by
one. -/
def msgSnapshots (s : JobState) : List String → List JobState
  | [] => []
  | msg :: rest =>
    let sNext := { s with messages := s.messages ++ [msg] }
    sNext :: msgSnapshots sNext rest

/-- Job state after appending a list of messages. -/
def afterMsgs (s : JobState) (msgs : List String) : JobState :=
  { s with messages := s.messages ++ msgs }

structure LoopOut where
  snaps : List JobState
  final : JobState
  cache : List CachedVideo
  steps : List StepResult

/-- The `for i, match in enumerate(matches)` loop: each iteration first
sets `current := i + 1` (one snapshot), then appends the iteration's
messages (one snapshot each). -/
def runLoop (cfg : Config) (env : RunEnv) :
    List MatchCase → List CachedVideo → JobState → Nat → LoopOut
  | [], cache, s, _ => ⟨[], s, cache, []⟩
  | m :: rest, cache, s, i =>
    let s1 := { s with current := i + 1 }
    let r := processOneMatch cfg env cache m
    let s2 := afterMsgs s1 r.messages
    let out := runLoop cfg env rest r.cache s2 (i + 1)
    ⟨s1 :: msgSnapshots s1 r.messages ++ out.snaps, out.final, out.cache,
      r :: out.steps⟩

structure RunResult where
  trace : List JobState
  final : JobState
  cache : List CachedVideo
  steps : List StepResult

/-- `process_matches_background` (src/app_prod.py lines 107-204).
`trace` lists the value of `processing_status[session_id]` after each
mutation, in order. -/
def process_matches_background (cfg : Config) (env : RunEnv)
    (cache : List CachedVideo) (ms : List MatchCase) : RunResult :=
  let s0 : JobState :=
    { status := "processing", current := 0, total := ms.length
      messages := [] }
  match env.zoomToken with
  | none =>
    let s1 := { s0 with status := "error" }
    let s2 := { s1 with messages := s1.messages ++ ["Failed to get Zoom access token"] }
    ⟨[s0, s1, s2], s2, cache, []⟩
  | some _ =>
    if env.yt.serviceAvailable then
      let out := runLoop cfg env ms cache s0 0
      let sDone := { out.final with status := "completed" }
      ⟨s0 :: out.snaps ++ [sDone], sDone, out.cache, out.steps⟩
    else
      let sa := { s0 with messages :=
        s0.messages ++ ["YouTube not authenticated - videos will be downloaded only"] }
      let out := runLoop cfg env ms cache sa 0
      let sDone := { out.final with status := "completed" }
      ⟨s0 :: sa :: out.snaps ++ [sDone], sDone, out.cache, out.steps⟩

/-! ## API routes (`src/routes/api.py`) -/

/-- Outcome of an HTTP request made by a service: a response with a
status code, or a raised exception (connection failure etc.). -/
inductive HttpOutcome (α : Type) where
  | resp (status : Nat) (body : α)
  | exn (msg : String)

/-- An Eventbrite event dictionary: only `name.text` is read by the
code under verification. -/
structure EbEvent where
  id : String
  nameText : Option String
deriving Repr, DecidableEq

/-- `EventbriteService.get_events_by_date`
(src/services/eventbrite_service.py lines 37-65): returns the events on
a 200; returns `[]` on any other status code and on any exception. -/
def get_events_by_date (outcome : HttpOutcome (List EbEvent)) : List EbEvent :=
  match outcome with
  | .resp status events => if status = 200 then events else []
  | .exn _ => []

/-- An event as returned by the `/api/events` route, annotated with the
duplicate-check result. -/
structure AnnotatedEvent where
  event : EbEvent
  youtube_exists : Bool
  youtube_video : Option FoundVideo
deriving Repr, DecidableEq

/-- The JSON response of the `/api/events` route. -/
inductive EventsResponse where
  | ok (events : List AnnotatedEvent)
  | err (status : Nat) (msg : String)
deriving Repr, DecidableEq

/-- The per-event annotation loop of `get_events`
(src/routes/api.py lines 106-121), threading cache updates from the
checks. -/
def annotateEvents (cfg : Config) (yt : YTEnv) :
    List EbEvent → List CachedVideo → List AnnotatedEvent × List CachedVideo
  | [], cache => ([], cache)
  | e :: rest, cache =>
    let event_title := e.nameText.getD ""
    let chk := check_existing_video cfg yt cache event_title
    let out := annotateEvents cfg yt rest chk.cache
    (⟨e, chk.result.isSome, chk.result⟩ :: out.1, out.2)

/-- The `get_events` route (src/routes/api.py lines 82-126).
`meetingDate`/`organizationId` are `none` when absent or falsy in the
request body; `dateParseOk` is the outcome of the `dateutil` parse. -/
def get_events_route (cfg : Config) (yt : YTEnv) (cache : List CachedVideo)
    (meetingDate organizationId : Option String) (dateParseOk : Bool)
    (upstream : HttpOutcome (List EbEvent)) :
    EventsResponse × List CachedVideo :=
  match meetingDate, organizationId with
  | some d, some _ =>
    if dateParseOk then
      let events := get_events_by_date upstream
      if yt.serviceAvailable then
        let out := annotateEvents cfg yt events cache
        (.ok out.1, out.2)
      else
        (.ok (events.map fun e => ⟨e, false, none⟩), cache)
    else (.err 400 ("Invalid date format: " ++ d), cache)
  | _, _ => (.err 400 "Meeting date and organization ID are required", cache)

/-- The JSON response of the `/api/process_matches` route. -/
inductive SubmitResponse where
  | ok (sessionId : String)
  | err (status : Nat) (msg : String)
deriving Repr, DecidableEq

/-- Instrumented outcome of `process_matches`: the response, whether
`uuid.uuid4()` was reached, whether a background thread was started. -/
structure SubmitOutcome where
  response : SubmitResponse
  sessionIdGenerated : Bool
  workerStarted : Bool
deriving Repr, DecidableEq

/-- The `process_matches` route (src/routes/api.py lines 128-159):
`data.get('matches', [])`, empty-check before the id is generated and
before the worker thread is spawned. -/
def process_matches (body : Option (List MatchCase)) (freshId : String) :
    SubmitOutcome :=
  let ms := body.getD []
  if ms.isEmpty then
    ⟨.err 400 "No matches provided", false, false⟩
  else
    ⟨.ok freshId, true, true⟩

/-- `EventsResponse.isErr`: whether the route answered with an error
status. -/
def EventsResponse.isErr : EventsResponse → Bool
  | .ok _ => false
  | .err _ _ => true

/-! ## Concrete fixtures used by counterexamples and witnesses -/

def cfgOn : Config := ⟨true⟩

def cfgOff : Config := ⟨false⟩

/-- A cached video whose normalized title matches "Board Meeting". -/
def sampleCached : CachedVideo :=
  { youtube_video_id := "vid123", title := "Board Meeting"
    title_normalized := "board meeting", description := ""
    published_at := 100, channel_id := "chan", last_updated := 1000 }

/-- A search item carrying the same published-item identifier as
`sampleCached` but a new title. -/
def sampleItem : SearchItem :=
  { videoId := "vid123", title := "Board Meeting v2", description := "d"
    publishedAt := 150, channelId := "chan" }

/-- YouTube environment at a time when `sampleCached` is still fresh
(default 24-hour window). -/
def envFresh : YTEnv :=
  { serviceAvailable := true, search := fun _ => .ok []
    now := 1000 + 24 * 3600 - 1, settingsCacheHours := none }

/-- YouTube environment at a time when `sampleCached` is stale. -/
def envStale : YTEnv :=
  { serviceAvailable := true, search := fun _ => .ok []
    now := 1000 + 24 * 3600, settingsCacheHours := none }

/-- YouTube environment with no authenticated service. -/
def envNoService : YTEnv :=
  { serviceAvailable := false, search := fun _ => .error "unused"
    now := 200000, settingsCacheHours := none }

/-- A match whose event is titled "Board Meeting" with one MP4
recording and a successful download. -/
def mBoard : MatchCase :=
  { meetingId := "m1", meetingStartTime := "2024-05-01T10:00:00Z"
    nameText := some "Board Meeting"
    recordingFiles := [{ file_type := "MP4", download_url := "http://z/dl" }]
    downloadResult := some "/tmp/zoom_video_1.mp4"
    uploadOutcome := .ok { videoId := "newvid", snippetTitle := "Board Meeting"
                           snippetDescription := "", snippetPublishedAt := 2000
                           snippetChannelId := "chan" } }

/-- A match with no recording files at all. -/
def mTrivial : MatchCase :=
  { meetingId := "m2", meetingStartTime := "", nameText := some "Event A"
    recordingFiles := [], downloadResult := none
    uploadOutcome := .error "unused" }

/-- Run environment: Zoom token obtained, YouTube not authenticated. -/
def envNoYt : RunEnv := { zoomToken := some "tok", yt := envNoService }

/-- Run environment: no Zoom token obtainable. -/
def envNoZoom : RunEnv := { zoomToken := none, yt := envFresh }

/-- Run environment: Zoom token obtained, YouTube authenticated, cache
checks against `envFresh`. -/
def envFull : RunEnv := { zoomToken := some "tok", yt := envFresh }

/-! ## Proofs -/

example : normalize_title_for_matching "  Hello,   WORLD! " = "hello world" := by decide
example : normalize_title_for_matching "a_b" = "a_b" := by decide
example : normalizeSpecClaim "a_b" = "ab" := by decide
example : normalizeSpecAmended "  Hello,   WORLD! " = "hello world" := by decide

/-! Equivalence of the code's `sub`/`strip` chain with the words-join
formulation. -/

lemma dropWhile_eq_self_of_none {p : Char → Bool} {l : List Char}
    (h : ∀ c ∈ l, p c = false) : l.dropWhile p = l := by
  induction l with
  | nil => rfl
  | cons c rest _ =>
    rw [List.dropWhile_cons, h c (by simp)]
    simp

lemma lstrip_collapse_true (l : List Char) :
    lstripChars (collapseWsAux true l) = collapseWsAux true l := by
  induction l with
  | nil => rfl
  | cons c rest ih =>
    by_cases h : pyIsSpaceChar c = true
    · simp only [collapseWsAux, if_pos h]
      exact ih
    · simp only [collapseWsAux, if_neg h]
      show List.dropWhile pyIsSpaceChar (c :: collapseWsAux false rest) = _
      rw [List.dropWhile_cons, if_neg h]

lemma lstrip_collapse_false (l : List Char) :
    lstripChars (collapseWsAux false l) = collapseWsAux true l := by
  cases l with
  | nil => rfl
  | cons c rest =>
    by_cases h : pyIsSpaceChar c = true
    · simp only [collapseWsAux, if_pos h]
      show List.dropWhile pyIsSpaceChar (' ' :: collapseWsAux true rest) = _
      rw [List.dropWhile_cons, if_pos (by decide : pyIsSpaceChar ' ' = true)]
      exact lstrip_collapse_true rest
    · simp only [collapseWsAux, if_neg h]
      show List.dropWhile pyIsSpaceChar (c :: collapseWsAux false rest) = _
      rw [List.dropWhile_cons, if_neg h]

lemma wordsAux_ne_nil {cur : List Char} (hcur : cur ≠ []) (l : List Char) :
    wordsAux cur l ≠ [] := by
  induction l generalizing cur with
  | nil => simp [wordsAux, hcur]
  | cons c rest ih =>
    by_cases h : pyIsSpaceChar c = true
    · simp only [wordsAux, if_pos h, if_neg hcur]
      exact List.cons_ne_nil _ _
    · simp only [wordsAux, if_neg h]
      exact ih (by simp)

lemma collapse_true_eq_nil_of_words_nil {l : List Char}
    (h : wordsAux [] l = []) : collapseWsAux true l = [] := by
  induction l with
  | nil => rfl
  | cons c rest ih =>
    by_cases hc : pyIsSpaceChar c = true
    · simp only [wordsAux, if_pos hc, if_pos rfl] at h
      simp only [collapseWsAux, if_pos hc]
      exact ih h
    · simp only [wordsAux, if_neg hc] at h
      exact absurd h (wordsAux_ne_nil (by simp) rest)

lemma mem_wordsAux_ne_nil :
    ∀ (l : List Char) (cur : List Char), ∀ w ∈ wordsAux cur l, w ≠ [] := by
  intro l
  induction l with
  | nil =>
    intro cur w hw
    by_cases hcur : cur = []
    · simp [wordsAux, hcur] at hw
    · simp only [wordsAux, if_neg hcur, List.mem_singleton] at hw
      subst hw
      simpa using hcur
  | cons c rest ih =>
    intro cur w hw
    by_cases hc : pyIsSpaceChar c = true
    · by_cases hcur : cur = []
      · simp only [wordsAux, if_pos hc, if_pos hcur] at hw
        exact ih [] w hw
      · simp only [wordsAux, if_pos hc, if_neg hcur, List.mem_cons] at hw
        rcases hw with rfl | hw
        · simpa using hcur
        · exact ih [] w hw
    · simp only [wordsAux, if_neg hc] at hw
      exact ih (c :: cur) w hw

lemma joinWords_cons_of_ne_nil {w : List Char} {ws : List (List Char)}
    (h : ws ≠ []) : joinWords (w :: ws) = w ++ ' ' :: joinWords ws := by
  cases ws with
  | nil => exact absurd rfl h
  | cons x t => rfl

lemma joinWords_ne_nil {ws : List (List Char)} (hne : ws ≠ [])
    (hw : ∀ w ∈ ws, w ≠ []) : joinWords ws ≠ [] := by
  cases ws with
  | nil => exact absurd rfl hne
  | cons w t =>
    cases t with
    | nil => exact hw w (by simp)
    | cons x u =>
      simp only [joinWords]
      intro h
      have := congrArg List.length h
      simp at this

lemma rstrip_of_none {l : List Char}
    (h : ∀ c ∈ l, pyIsSpaceChar c = false) : rstripChars l = l := by
  unfold rstripChars
  rw [dropWhile_eq_self_of_none (by intro c hc; exact h c (List.mem_reverse.mp hc))]
  exact l.reverse_reverse

lemma rstrip_append_of_ne_nil {x y : List Char} (h : rstripChars y ≠ []) :
    rstripChars (x ++ y) = x ++ rstripChars y := by
  unfold rstripChars at *
  rw [List.reverse_append, List.dropWhile_append]
  have hy : ¬ (y.reverse.dropWhile pyIsSpaceChar).isEmpty = true := by
    intro hemp
    rw [List.isEmpty_iff] at hemp
    simp [hemp] at h
  rw [if_neg hy, List.reverse_append, List.reverse_reverse]

lemma collapse_strip_eq_words : ∀ l : List Char,
    (rstripChars (collapseWsAux true l) = joinWords (wordsAux [] l)) ∧
    (∀ cur : List Char, cur ≠ [] → (∀ c ∈ cur, pyIsSpaceChar c = false) →
       rstripChars (cur.reverse ++ collapseWsAux false l) = joinWords (wordsAux cur l)) := by
  intro l
  induction l with
  | nil =>
    constructor
    · rfl
    · intro cur hcur hnos
      simp only [collapseWsAux, List.append_nil, wordsAux, if_neg hcur]
      rw [rstrip_of_none (by intro c hc; exact hnos c (List.mem_reverse.mp hc))]
      rfl
  | cons c rest ih =>
    obtain ⟨ih1, ih2⟩ := ih
    constructor
    · by_cases hc : pyIsSpaceChar c = true
      · simp only [collapseWsAux, if_pos hc, wordsAux, if_pos rfl]
        exact ih1
      · simp only [collapseWsAux, if_neg hc, wordsAux, if_neg hc]
        have h' := ih2 [c] (by simp)
          (by intro d hd; simp at hd; subst hd; simpa using hc)
        rw [show ([c].reverse ++ collapseWsAux false rest)
            = c :: collapseWsAux false rest by simp] at h'
        exact h'
    · intro cur hcur hnos
      by_cases hc : pyIsSpaceChar c = true
      · simp only [collapseWsAux, if_pos hc, wordsAux, if_pos hc, if_neg hcur]
        by_cases hw : wordsAux [] rest = []
        · rw [hw, collapse_true_eq_nil_of_words_nil hw]
          show rstripChars (cur.reverse ++ [' ']) = joinWords [cur.reverse]
          unfold rstripChars
          rw [List.reverse_append, List.reverse_singleton, List.reverse_reverse,
            List.singleton_append, List.dropWhile_cons,
            if_pos (by decide : pyIsSpaceChar ' ' = true),
            dropWhile_eq_self_of_none hnos]
          rfl
        · have hne : joinWords (wordsAux [] rest) ≠ [] :=
            joinWords_ne_nil hw (mem_wordsAux_ne_nil rest [])
          have hstrip : rstripChars (collapseWsAux true rest) ≠ [] := by
            rw [ih1]; exact hne
          rw [joinWords_cons_of_ne_nil hw,
            show cur.reverse ++ ' ' :: collapseWsAux true rest
              = (cur.reverse ++ [' ']) ++ collapseWsAux true rest by simp,
            rstrip_append_of_ne_nil hstrip, ih1]
          simp
      · simp only [collapseWsAux, if_neg hc, wordsAux, if_neg hc]
        have h' := ih2 (c :: cur) (by simp)
          (by intro d hd
              rcases List.mem_cons.mp hd with rfl | hd
              · simpa using hc
              · exact hnos d hd)
        rw [show (c :: cur).reverse ++ collapseWsAux false rest
            = cur.reverse ++ c :: collapseWsAux false rest by simp] at h'
        exact h'

lemma pyStrip_collapse_eq_joinWords (l : List Char) :
    pyStrip (collapseWs l) = joinWords (wordsAux [] l) := by
  unfold pyStrip collapseWs
  rw [lstrip_collapse_false, (collapse_strip_eq_words l).1]

/-! ### Video cache lookup (C4, C9, C10) -/

/-- Anything `_search_youtube_for_title` returns is a fresh remote
result, never marked as coming from the cache. -/
lemma searchYoutubeForTitle_cached_false (env : YTEnv)
    (cache : List CachedVideo) (title : String) (v : FoundVideo)
    (h : (searchYoutubeForTitle env cache title).1 = some v) :
    v.cached = false := by
  unfold searchYoutubeForTitle at h
  by_cases hs : env.serviceAvailable = true
  · rw [if_pos hs] at h
    cases hsr : env.search title with
    | error e => rw [hsr] at h; simp at h
    | ok items =>
      rw [hsr] at h
      simp only at h
      cases hf : items.find?
          (fun it => YouTubeVideo.normalize_title it.title
            = YouTubeVideo.normalize_title title) with
      | none => rw [hf] at h; simp at h
      | some it =>
        rw [hf] at h
        simp only [Option.some.injEq] at h
        rw [← h]
  · rw [if_neg hs] at h
    simp at h

/-- Reduction of `check_existing_video` when the flag is on and the
cache lookup finds `r`. -/
lemma check_existing_video_found
    (cfg : Config) (env : YTEnv) (cache : List CachedVideo) (title : String)
    (r : CachedVideo)
    (hflag : cfg.CHECK_EXISTING_VIDEOS = true)
    (hfind : findCachedByNormTitle cache (YouTubeVideo.normalize_title title)
      = some r) :
    check_existing_video cfg env cache title =
      if env.now < r.last_updated + getCacheHours env * 3600 then
        { result := some { video_id := r.youtube_video_id, title := r.title
                           url := videoUrl r.youtube_video_id
                           published_at := r.published_at, cached := true }
          cacheConsulted := true, remoteSearched := false, cache := cache }
      else
        { result := (searchYoutubeForTitle env cache title).1
          cacheConsulted := true, remoteSearched := true
          cache := (searchYoutubeForTitle env cache title).2 } := by
  unfold check_existing_video
  rw [hflag, if_pos rfl, hfind]

/-- C4: with duplicate checking enabled, a cache entry younger than the
freshness window is returned as the result with no remote search, and a
cache entry at least as old as the window always triggers the remote
search, whatever the entry contains. -/
theorem C4_fresh_cache_trusted_stale_rechecked
    (cfg : Config) (env : YTEnv) (cache : List CachedVideo) (title : String)
    (r : CachedVideo)
    (hflag : cfg.CHECK_EXISTING_VIDEOS = true)
    (hfind : findCachedByNormTitle cache (YouTubeVideo.normalize_title title)
      = some r) :
    (env.now < r.last_updated + getCacheHours env * 3600 →
      (check_existing_video cfg env cache title).result =
        some { video_id := r.youtube_video_id, title := r.title
               url := videoUrl r.youtube_video_id
               published_at := r.published_at, cached := true } ∧
      (check_existing_video cfg env cache title).remoteSearched = false) ∧
    (r.last_updated + getCacheHours env * 3600 ≤ env.now →
      (check_existing_video cfg env cache title).remoteSearched = true) := by
  rw [check_existing_video_found cfg env cache title r hflag hfind]
  constructor
  · intro hfreshT
    rw [if_pos hfreshT]
    exact ⟨rfl, rfl⟩
  · intro hstale
    rw [if_neg (by omega)]

/-- Witness for C4 at a concrete fresh entry and a concrete stale
moment. -/
theorem C4_witness :
    (cfgOn.CHECK_EXISTING_VIDEOS = true ∧
     findCachedByNormTitle [sampleCached]
       (YouTubeVideo.normalize_title "Board Meeting") = some sampleCached ∧
     envFresh.now < sampleCached.last_updated + getCacheHours envFresh * 3600 ∧
     (check_existing_video cfgOn envFresh [sampleCached] "Board Meeting").result =
       some { video_id := "vid123", title := "Board Meeting"
              url := "https://www.youtube.com/watch?v=vid123"
              published_at := 100, cached := true } ∧
     (check_existing_video cfgOn envFresh [sampleCached] "Board Meeting").remoteSearched
       = false) ∧
    (sampleCached.last_updated + getCacheHours envStale * 3600 ≤ envStale.now ∧
     (check_existing_video cfgOn envStale [sampleCached] "Board Meeting").remoteSearched
       = true) := by
  constructor
  · refine ⟨rfl, by decide, by decide, ?_⟩
    have h := (C4_fresh_cache_trusted_stale_rechecked cfgOn envFresh [sampleCached]
      "Board Meeting" sampleCached rfl (by decide)).1 (by decide)
    exact ⟨by rw [h.1]; decide, h.2⟩
  · refine ⟨by decide, ?_⟩
    exact (C4_fresh_cache_trusted_stale_rechecked cfgOn envStale [sampleCached]
      "Board Meeting" sampleCached rfl (by decide)).2 (by decide)

/-- C10: once a cached entry is stale, the lookup result is exactly the
remote search's result: it is never the stale record (any hit is marked
`cached := false`), and it is `none` whenever the service is
unavailable or the search raised. -/
theorem C10_stale_entry_never_surfaced
    (cfg : Config) (env : YTEnv) (cache : List CachedVideo) (title : String)
    (r : CachedVideo)
    (hflag : cfg.CHECK_EXISTING_VIDEOS = true)
    (hfind : findCachedByNormTitle cache (YouTubeVideo.normalize_title title)
      = some r)
    (hstale : r.last_updated + getCacheHours env * 3600 ≤ env.now) :
    (check_existing_video cfg env cache title).result =
      (searchYoutubeForTitle env cache title).1 ∧
    (∀ v, (check_existing_video cfg env cache title).result = some v →
      v.cached = false) ∧
    (env.serviceAvailable = false →
      (check_existing_video cfg env cache title).result = none) ∧
    (∀ msg, env.search title = .error msg →
      (check_existing_video cfg env cache title).result = none) := by
  have hres : (check_existing_video cfg env cache title).result =
      (searchYoutubeForTitle env cache title).1 := by
    rw [check_existing_video_found cfg env cache title r hflag hfind]
    rw [if_neg (by omega)]
  refine ⟨hres, ?_, ?_, ?_⟩
  · intro v hv
    rw [hres] at hv
    exact searchYoutubeForTitle_cached_false env cache title v hv
  · intro hunav
    rw [hres]
    unfold searchYoutubeForTitle
    rw [if_neg (by simp [hunav])]
  · intro msg hmsg
    rw [hres]
    unfold searchYoutubeForTitle
    by_cases hs : env.serviceAvailable = true
    · rw [if_pos hs, hmsg]
    · rw [if_neg hs]

/-- Witness for C10: stale entry, service unavailable, result absent. -/
theorem C10_witness :
    cfgOn.CHECK_EXISTING_VIDEOS = true ∧
    findCachedByNormTitle [sampleCached]
      (YouTubeVideo.normalize_title "Board Meeting") = some sampleCached ∧
    sampleCached.last_updated + getCacheHours envNoService * 3600 ≤ envNoService.now ∧
    (check_existing_video cfgOn envNoService [sampleCached] "Board Meeting").result
      = none := by
  refine ⟨rfl, by decide, by decide, ?_⟩
  exact (C10_stale_entry_never_surfaced cfgOn envNoService [sampleCached]
    "Board Meeting" sampleCached rfl (by decide) (by decide)).2.2.1 rfl

/-- Reduction of `check_existing_video` when the flag is off. -/
lemma check_existing_video_disabled
    (cfg : Config) (env : YTEnv) (cache : List CachedVideo) (title : String)
    (hflag : cfg.CHECK_EXISTING_VIDEOS = false) :
    check_existing_video cfg env cache title =
      { result := none, cacheConsulted := false, remoteSearched := false
        cache := cache } := by
  unfold check_existing_video
  rw [hflag, if_neg (by simp)]

/-- C9: with `CHECK_EXISTING_VIDEOS` off, the duplicate check returns
absent without touching cache or remote, and the pipeline downloads and
uploads even though a matching record sits in the cache. -/
theorem C9_flag_off_disables_duplicate_detection (cfg : Config)
    (hflag : cfg.CHECK_EXISTING_VIDEOS = false) :
    (∀ (env : YTEnv) (cache : List CachedVideo) (title : String),
      check_existing_video cfg env cache title =
        { result := none, cacheConsulted := false, remoteSearched := false
          cache := cache }) ∧
    (∀ (renv : RunEnv) (cache : List CachedVideo) (m : MatchCase)
       (r : CachedVideo),
      renv.yt.serviceAvailable = true →
      r ∈ cache →
      r.title_normalized = YouTubeVideo.normalize_title (eventTitleOf m) →
      (m.recordingFiles.find? (fun f => pyUpper f.file_type = "MP4")).isSome →
      m.downloadResult.isSome →
      (processOneMatch cfg renv cache m).downloadAttempted = true ∧
      (processOneMatch cfg renv cache m).uploadAttempted = true) := by
  constructor
  · intro env cache title
    exact check_existing_video_disabled cfg env cache title hflag
  · intro renv cache m r hyt _hr _hnorm hfile hdl
    have hchk := check_existing_video_disabled cfg renv.yt cache (eventTitleOf m) hflag
    unfold processOneMatch
    rw [hyt, if_pos rfl, hchk]
    show (processFiles cfg renv cache m (eventTitleOf m) _).downloadAttempted = true ∧
      (processFiles cfg renv cache m (eventTitleOf m) _).uploadAttempted = true
    unfold processFiles
    rw [if_neg (by
      intro hemp
      rw [List.isEmpty_iff] at hemp
      rw [hemp] at hfile
      simp [List.find?] at hfile)]
    obtain ⟨f, hf⟩ := Option.isSome_iff_exists.mp hfile
    rw [hf]
    obtain ⟨p, hp⟩ := Option.isSome_iff_exists.mp hdl
    rw [hp, hyt, if_pos rfl]
    by_cases hu :
        (upload_video cfg renv.yt cache (eventTitleOf m) m.uploadOutcome true).1.success = true
    · rw [if_pos hu]
      exact ⟨rfl, rfl⟩
    · rw [if_neg hu]
      exact ⟨rfl, rfl⟩

/-- Witness for C9: flag off, match titled like the cached record, MP4
present, download succeeded; both download and upload are attempted. -/
theorem C9_witness :
    cfgOff.CHECK_EXISTING_VIDEOS = false ∧
    check_existing_video cfgOff envFresh [sampleCached] "Board Meeting" =
      { result := none, cacheConsulted := false, remoteSearched := false
        cache := [sampleCached] } ∧
    envFull.yt.serviceAvailable = true ∧
    sampleCached ∈ [sampleCached] ∧
    sampleCached.title_normalized
      = YouTubeVideo.normalize_title (eventTitleOf mBoard) ∧
    (mBoard.recordingFiles.find? (fun f => pyUpper f.file_type = "MP4")).isSome ∧
    mBoard.downloadResult.isSome ∧
    (processOneMatch cfgOff envFull [sampleCached] mBoard).downloadAttempted = true ∧
    (processOneMatch cfgOff envFull [sampleCached] mBoard).uploadAttempted = true := by
  have h := C9_flag_off_disables_duplicate_detection cfgOff rfl
  have h2 := h.2 envFull [sampleCached] mBoard sampleCached rfl (by decide)
    (by decide) (by decide) (by decide)
  exact ⟨rfl, h.1 envFresh [sampleCached] "Board Meeting", rfl, by decide,
    by decide, by decide, by decide, h2.1, h2.2⟩

/-! ### Video cache upsert (C8) -/

lemma replaceFirst_map {α β : Type} (p : α → Bool) (f : α → α) (g : α → β)
    (hg : ∀ x, g (f x) = g x) :
    ∀ l : List α, (replaceFirst p f l).map g = l.map g := by
  intro l
  induction l with
  | nil => rfl
  | cons x xs ih =>
    unfold replaceFirst
    by_cases hx : p x = true
    · rw [if_pos hx]
      simp [hg]
    · rw [if_neg hx]
      simp [ih]

lemma mem_replaceFirst {α : Type} {p : α → Bool} {f : α → α} :
    ∀ {l : List α} {x : α}, x ∈ replaceFirst p f l →
      x ∈ l ∨ ∃ y ∈ l, x = f y := by
  intro l
  induction l with
  | nil => intro x hx; simp [replaceFirst] at hx
  | cons z zs ih =>
    intro x hx
    unfold replaceFirst at hx
    by_cases hz : p z = true
    · rw [if_pos hz] at hx
      rcases List.mem_cons.mp hx with rfl | hx
      · exact Or.inr ⟨z, by simp⟩
      · exact Or.inl (by simp [hx])
    · rw [if_neg hz] at hx
      rcases List.mem_cons.mp hx with rfl | hx
      · exact Or.inl (by simp)
      · rcases ih hx with h | ⟨y, hy, hxy⟩
        · exact Or.inl (by simp [h])
        · exact Or.inr ⟨y, by simp [hy], hxy⟩

lemma replaceFirst_decomp {α : Type} {p : α → Bool} {f : α → α} :
    ∀ {l : List α}, (∃ x ∈ l, p x = true) →
      ∃ pre y post, l = pre ++ y :: post ∧ (∀ z ∈ pre, p z = false) ∧
        p y = true ∧ replaceFirst p f l = pre ++ f y :: post := by
  intro l
  induction l with
  | nil => intro h; simp at h
  | cons z zs ih =>
    intro h
    by_cases hz : p z = true
    · exact ⟨[], z, zs, by simp, by simp, hz, by simp [replaceFirst, hz]⟩
    · have hzs : ∃ x ∈ zs, p x = true := by
        rcases h with ⟨x, hx, hpx⟩
        rcases List.mem_cons.mp hx with rfl | hx
        · exact absurd hpx hz
        · exact ⟨x, hx, hpx⟩
      obtain ⟨pre, y, post, hdec, hpre, hy, hrepl⟩ := ih hzs
      refine ⟨z :: pre, y, post, by simp [hdec], ?_, hy, ?_⟩
      · intro w hw
        rcases List.mem_cons.mp hw with rfl | hw
        · simpa using hz
        · exact hpre w hw
      · unfold replaceFirst
        rw [if_neg hz, hrepl]
        simp

lemma length_filter_le_one_of_nodup_map {l : List CachedVideo}
    (h : (l.map (fun r => r.youtube_video_id)).Nodup) (v : String) :
    (l.filter (fun r => r.youtube_video_id = v)).length ≤ 1 := by
  induction l with
  | nil => simp
  | cons x xs ih =>
    simp only [List.map_cons, List.nodup_cons] at h
    obtain ⟨hx, hxs⟩ := h
    rw [List.filter_cons]
    by_cases hv : x.youtube_video_id = v
    · rw [if_pos (by simp [hv])]
      have hempty : xs.filter (fun r => r.youtube_video_id = v) = [] := by
        rw [List.filter_eq_nil_iff]
        intro a ha
        simp only [decide_eq_true_eq]
        intro hav
        exact hx (List.mem_map.mpr ⟨a, ha, by rw [hav, hv]⟩)
      rw [hempty]
      simp
    · rw [if_neg (by simp [hv])]
      exact ih hxs

/-- C8: the cache upsert preserves the normalized-title invariant and
the one-record-per-identifier property; an unseen identifier is
appended as a fresh record, a present identifier has its `title`,
`title_normalized` (recomputed from the new title), `description` and
`last_updated` fields updated in place, all other rows untouched. -/
theorem C8_cache_upsert (cache : List CachedVideo) (item : SearchItem)
    (now : Int)
    (hinv : ∀ r ∈ cache, r.title_normalized = YouTubeVideo.normalize_title r.title)
    (hnodup : (cache.map (fun r => r.youtube_video_id)).Nodup) :
    (∀ r ∈ cacheVideo cache item now,
        r.title_normalized = YouTubeVideo.normalize_title r.title) ∧
    ((cacheVideo cache item now).map (fun r => r.youtube_video_id)).Nodup ∧
    (∀ v, ((cacheVideo cache item now).filter
        (fun r => r.youtube_video_id = v)).length ≤ 1) ∧
    ((∀ r ∈ cache, r.youtube_video_id ≠ item.videoId) →
      cacheVideo cache item now = cache ++
        [{ youtube_video_id := item.videoId, title := item.title
           title_normalized := YouTubeVideo.normalize_title item.title
           description := item.description, published_at := item.publishedAt
           channel_id := item.channelId, last_updated := now }]) ∧
    ((∃ r ∈ cache, r.youtube_video_id = item.videoId) →
      ∃ pre r post, cache = pre ++ r :: post ∧
        r.youtube_video_id = item.videoId ∧
        cacheVideo cache item now = pre ++
          { r with title := item.title
                   title_normalized := YouTubeVideo.normalize_title item.title
                   description := item.description
                   last_updated := now } :: post) := by
  by_cases hpresent :
      ((cache.find? (fun r => r.youtube_video_id = item.videoId)).isSome : Prop)
  · have hcv : cacheVideo cache item now =
        replaceFirst (fun r => r.youtube_video_id = item.videoId)
          (fun r =>
            { r with
              title := item.title
              title_normalized := YouTubeVideo.normalize_title item.title
              description := item.description
              last_updated := now }) cache := by
      unfold cacheVideo
      rw [if_pos hpresent]
    have hmapeq := replaceFirst_map
      (fun r => r.youtube_video_id = item.videoId)
      (fun r =>
        { r with
          title := item.title
          title_normalized := YouTubeVideo.normalize_title item.title
          description := item.description
          last_updated := now })
      (fun r => r.youtube_video_id) (fun _ => rfl) cache
    have hnodup2 : ((cacheVideo cache item now).map
        (fun r => r.youtube_video_id)).Nodup := by
      rw [hcv, hmapeq]
      exact hnodup
    refine ⟨?_, hnodup2, fun v => length_filter_le_one_of_nodup_map hnodup2 v,
      ?_, ?_⟩
    · intro r hr
      rw [hcv] at hr
      rcases mem_replaceFirst hr with h | ⟨y, _, rfl⟩
      · exact hinv r h
      · rfl
    · intro habs
      obtain ⟨x, hx, hpx⟩ := List.find?_isSome.mp hpresent
      exact absurd (of_decide_eq_true hpx) (habs x hx)
    · intro hex
      obtain ⟨pre, y, post, hdec, _, hy, hrepl⟩ :=
        @replaceFirst_decomp CachedVideo
          (fun r => r.youtube_video_id = item.videoId)
          (fun r =>
            { r with
              title := item.title
              title_normalized := YouTubeVideo.normalize_title item.title
              description := item.description
              last_updated := now })
          cache
          (by
            obtain ⟨r, hr, hrid⟩ := hex
            exact ⟨r, hr, decide_eq_true hrid⟩)
      exact ⟨pre, y, post, hdec, of_decide_eq_true hy, by rw [hcv, hrepl]⟩
  · have hnone : cache.find? (fun r => r.youtube_video_id = item.videoId)
        = none := by
      rw [← Option.not_isSome_iff_eq_none]
      exact hpresent
    have habsent : ∀ r ∈ cache, r.youtube_video_id ≠ item.videoId := by
      intro r hr hid
      exact List.find?_eq_none.mp hnone r hr (decide_eq_true hid)
    have hcv : cacheVideo cache item now = cache ++
        [{ youtube_video_id := item.videoId, title := item.title
           title_normalized := YouTubeVideo.normalize_title item.title
           description := item.description, published_at := item.publishedAt
           channel_id := item.channelId, last_updated := now }] := by
      unfold cacheVideo
      rw [if_neg hpresent]
    have hnodup2 : ((cacheVideo cache item now).map
        (fun r => r.youtube_video_id)).Nodup := by
      rw [hcv, List.map_append]
      refine List.Nodup.append hnodup (by simp) ?_
      intro a ha hb
      simp only [List.map_cons, List.map_nil, List.mem_singleton] at hb
      subst hb
      obtain ⟨r, hr, hid⟩ := List.mem_map.mp ha
      exact habsent r hr hid
    refine ⟨?_, hnodup2, fun v => length_filter_le_one_of_nodup_map hnodup2 v,
      fun _ => hcv, ?_⟩
    · intro r hr
      rw [hcv] at hr
      rcases List.mem_append.mp hr with h | h
      · exact hinv r h
      · simp only [List.mem_singleton] at h
        subst h
        rfl
    · intro hex
      obtain ⟨r, hr, hid⟩ := hex
      exact absurd hid (habsent r hr)

/-- Witness for C8: upserting an item whose identifier is already
cached keeps the invariants. -/
theorem C8_witness :
    (∀ r ∈ [sampleCached],
      r.title_normalized = YouTubeVideo.normalize_title r.title) ∧
    ([sampleCached].map (fun r => r.youtube_video_id)).Nodup ∧
    (∀ r ∈ cacheVideo [sampleCached] sampleItem 5000,
      r.title_normalized = YouTubeVideo.normalize_title r.title) ∧
    ((cacheVideo [sampleCached] sampleItem 5000).map
      (fun r => r.youtube_video_id)).Nodup := by
  have h := C8_cache_upsert [sampleCached] sampleItem 5000 (by decide) (by decide)
  exact ⟨by decide, by decide, h.1, h.2.1⟩

/-! ### Pipeline progress lemmas (C2, C5, C6) -/

lemma msgSnapshots_spec (msgs : List String) :
    ∀ s : JobState,
      (∀ x ∈ msgSnapshots s msgs,
        x.current = s.current ∧ x.total = s.total) ∧
      List.Chain' (fun a b => a.current ≤ b.current) (s :: msgSnapshots s msgs) := by
  induction msgs with
  | nil =>
    intro s
    exact ⟨by intro x hx; simp [msgSnapshots] at hx, by simp [msgSnapshots]⟩
  | cons msg rest ih =>
    intro s
    constructor
    · intro x hx
      simp only [msgSnapshots] at hx
      rcases List.mem_cons.mp hx with rfl | hx
      · exact ⟨rfl, rfl⟩
      · exact (ih { s with messages := s.messages ++ [msg] }).1 x hx
    · simp only [msgSnapshots]
      rw [List.chain'_cons]
      exact ⟨le_refl _, (ih { s with messages := s.messages ++ [msg] }).2⟩

lemma chain'_snoc_of_le {l : List JobState} {b : JobState}
    (h : List.Chain' (fun a c => a.current ≤ c.current) l)
    (hb : ∀ x ∈ l, x.current ≤ b.current) :
    List.Chain' (fun a c => a.current ≤ c.current) (l ++ [b]) := by
  rw [List.chain'_append]
  refine ⟨h, List.chain'_singleton b, ?_⟩
  intro x hx y hy
  simp only [List.head?_cons, Option.mem_def, Option.some.injEq] at hy
  subst hy
  rw [Option.mem_def] at hx
  exact hb x (List.mem_of_getLast?_eq_some hx)

lemma runLoop_spec (cfg : Config) (env : RunEnv) :
    ∀ (ms : List MatchCase) (cache : List CachedVideo) (s : JobState) (i : Nat),
      s.current = i →
      (∀ x ∈ (runLoop cfg env ms cache s i).snaps,
        i + 1 ≤ x.current ∧ x.current ≤ i + ms.length ∧ x.total = s.total) ∧
      (runLoop cfg env ms cache s i).final.current = i + ms.length ∧
      (runLoop cfg env ms cache s i).final.total = s.total ∧
      List.Chain' (fun a b => a.current ≤ b.current)
        (s :: (runLoop cfg env ms cache s i).snaps) := by
  intro ms
  induction ms with
  | nil =>
    intro cache s i hcur
    refine ⟨by intro x hx; simp [runLoop] at hx, by simp [runLoop, hcur],
      by simp [runLoop], by simp [runLoop]⟩
  | cons m rest ih =>
    intro cache s i hcur
    simp only [runLoop]
    obtain ⟨B1, B2, B3, B4⟩ := ih (processOneMatch cfg env cache m).cache
      (afterMsgs { s with current := i + 1 }
        (processOneMatch cfg env cache m).messages)
      (i + 1) rfl
    obtain ⟨M1, M2⟩ := msgSnapshots_spec
      (processOneMatch cfg env cache m).messages { s with current := i + 1 }
    have hamt : (afterMsgs { s with current := i + 1 }
        (processOneMatch cfg env cache m).messages).total = s.total := rfl
    refine ⟨?_, ?_, ?_, ?_⟩
    · intro x hx
      rcases List.mem_append.mp hx with hx | hx
      · rcases List.mem_cons.mp hx with rfl | hx
        · exact ⟨le_refl _, by simp, rfl⟩
        · obtain ⟨hc, ht⟩ := M1 x hx
          have hc2 : x.current = i + 1 := hc
          have ht2 : x.total = s.total := ht
          simp only [List.length_cons]
          exact ⟨by omega, by omega, ht2⟩
      · obtain ⟨hc1, hc2, ht⟩ := B1 x hx
        rw [hamt] at ht
        simp only [List.length_cons]
        exact ⟨by omega, by omega, ht⟩
    · rw [B2]
      simp only [List.length_cons]
      omega
    · rw [B3]
      rfl
    · rw [← List.cons_append, List.chain'_append]
      refine ⟨?_, B4.tail, ?_⟩
      · rw [List.chain'_cons]
        exact ⟨by simp [hcur], M2⟩
      · intro x hx y hy
        rw [Option.mem_def] at hx
        have hxmem := List.mem_of_getLast?_eq_some hx
        have hxc : x.current ≤ i + 1 := by
          rcases List.mem_cons.mp hxmem with rfl | hxm
          · omega
          · rcases List.mem_cons.mp hxm with rfl | hxm2
            · exact le_refl _
            · exact le_of_eq (M1 x hxm2).1
        have hymem : y ∈ (runLoop cfg env rest (processOneMatch cfg env cache m).cache
            (afterMsgs { s with current := i + 1 }
              (processOneMatch cfg env cache m).messages) (i + 1)).snaps := by
          cases hsn : (runLoop cfg env rest (processOneMatch cfg env cache m).cache
              (afterMsgs { s with current := i + 1 }
                (processOneMatch cfg env cache m).messages) (i + 1)).snaps with
          | nil => rw [hsn] at hy; simp at hy
          | cons a t =>
            rw [hsn] at hy
            simp only [List.head?_cons, Option.mem_def, Option.some.injEq] at hy
            subst hy
            exact List.mem_cons_self _ _
        have hyc := (B1 y hymem).1
        omega

/-- C5: in every run, every observable snapshot of the job satisfies
`current ≤ total` (with `current : Nat`, so `0 ≤ current` holds by
type), and `current` never decreases from one snapshot to the next. -/
theorem C5_progress_bounded_and_monotone (cfg : Config) (env : RunEnv)
    (cache : List CachedVideo) (ms : List MatchCase) :
    (∀ s ∈ (process_matches_background cfg env cache ms).trace,
      s.current ≤ s.total) ∧
    List.Chain' (fun a b => a.current ≤ b.current)
      (process_matches_background cfg env cache ms).trace := by
  unfold process_matches_background
  dsimp only
  split
  · constructor
    · intro s hs
      dsimp only at hs
      rcases List.mem_cons.mp hs with rfl | hs
      · exact Nat.zero_le _
      · rcases List.mem_cons.mp hs with rfl | hs
        · exact Nat.zero_le _
        · rcases List.mem_cons.mp hs with rfl | hs
          · exact Nat.zero_le _
          · simp at hs
    · rw [List.chain'_cons, List.chain'_cons]
      exact ⟨le_refl _, le_refl _, List.chain'_singleton _⟩
  · split
    · obtain ⟨HB, HC, HT, HCh⟩ := runLoop_spec cfg env ms cache
        { status := "processing", current := 0, total := ms.length
          messages := [] } 0 rfl
      constructor
      · intro s hs
        rcases List.mem_append.mp hs with hs | hs
        · rcases List.mem_cons.mp hs with rfl | hs
          · exact Nat.zero_le _
          · obtain ⟨_, h2, h3⟩ := HB s hs
            have h3r : s.total = ms.length := h3
            omega
        · rw [List.mem_singleton] at hs
          subst hs
          show (runLoop cfg env ms cache
              { status := "processing", current := 0, total := ms.length
                messages := [] } 0).final.current ≤
            (runLoop cfg env ms cache
              { status := "processing", current := 0, total := ms.length
                messages := [] } 0).final.total
          have ht2 : (runLoop cfg env ms cache
              { status := "processing", current := 0, total := ms.length
                messages := [] } 0).final.total = ms.length := HT
          omega
      · apply chain'_snoc_of_le HCh
        intro x hx
        show x.current ≤ (runLoop cfg env ms cache
            { status := "processing", current := 0, total := ms.length
              messages := [] } 0).final.current
        rcases List.mem_cons.mp hx with rfl | hx
        · show (0 : Nat) ≤ _
          omega
        · have := (HB x hx).2.1
          omega
    · obtain ⟨HB, HC, HT, HCh⟩ := runLoop_spec cfg env ms cache
        { status := "processing", current := 0, total := ms.length
          messages := ["YouTube not authenticated - videos will be downloaded only"] }
        0 rfl
      constructor
      · intro s hs
        rcases List.mem_cons.mp hs with rfl | hs
        · exact Nat.zero_le _
        · rcases List.mem_append.mp hs with hs | hs
          · rcases List.mem_cons.mp hs with rfl | hs
            · exact Nat.zero_le _
            · obtain ⟨_, h2, h3⟩ := HB s hs
              have h3r : s.total = ms.length := h3
              omega
          · rw [List.mem_singleton] at hs
            subst hs
            show (runLoop cfg env ms cache
                { status := "processing", current := 0, total := ms.length
                  messages := ["YouTube not authenticated - videos will be downloaded only"] }
                0).final.current ≤
              (runLoop cfg env ms cache
                { status := "processing", current := 0, total := ms.length
                  messages := ["YouTube not authenticated - videos will be downloaded only"] }
                0).final.total
            have ht2 : (runLoop cfg env ms cache
                { status := "processing", current := 0, total := ms.length
                  messages := ["YouTube not authenticated - videos will be downloaded only"] }
                0).final.total = ms.length := HT
            omega
      · show List.Chain' (fun a b => a.current ≤ b.current)
          (({ status := "processing", current := 0, total := ms.length
              messages := [] } ::
            { status := "processing", current := 0, total := ms.length
              messages := ["YouTube not authenticated - videos will be downloaded only"] } ::
            (runLoop cfg env ms cache
              { status := "processing", current := 0, total := ms.length
                messages := ["YouTube not authenticated - videos will be downloaded only"] }
              0).snaps) ++
           [{ (runLoop cfg env ms cache
              { status := "processing", current := 0, total := ms.length
                messages := ["YouTube not authenticated - videos will be downloaded only"] }
              0).final with status := "completed" }])
        apply chain'_snoc_of_le
        · rw [List.chain'_cons]
          exact ⟨le_refl _, HCh⟩
        · intro x hx
          show x.current ≤ (runLoop cfg env ms cache
              { status := "processing", current := 0, total := ms.length
                messages := ["YouTube not authenticated - videos will be downloaded only"] }
              0).final.current
          rcases List.mem_cons.mp hx with rfl | hx
          · show (0 : Nat) ≤ _
            omega
          · rcases List.mem_cons.mp hx with rfl | hx
            · show (0 : Nat) ≤ _
              omega
            · have := (HB x hx).2.1
              omega

/-- Reduction of a run when no Zoom token is obtainable. -/
lemma pmb_no_token (cfg : Config) (env : RunEnv) (cache : List CachedVideo)
    (ms : List MatchCase) (h : env.zoomToken = none) :
    process_matches_background cfg env cache ms =
      ⟨[{ status := "processing", current := 0, total := ms.length, messages := [] },
        { status := "error", current := 0, total := ms.length, messages := [] },
        { status := "error", current := 0, total := ms.length
          messages := ["Failed to get Zoom access token"] }],
       { status := "error", current := 0, total := ms.length
         messages := ["Failed to get Zoom access token"] },
       cache, []⟩ := by
  unfold process_matches_background
  rw [h]
  exact rfl

/-- Reduction of a run when the token is obtained but YouTube is not
authenticated. -/
lemma pmb_no_youtube (cfg : Config) (env : RunEnv) (cache : List CachedVideo)
    (ms : List MatchCase) (t : String) (h : env.zoomToken = some t)
    (hyt : env.yt.serviceAvailable = false) :
    process_matches_background cfg env cache ms =
      ⟨{ status := "processing", current := 0, total := ms.length, messages := [] } ::
        { status := "processing", current := 0, total := ms.length
          messages := ["YouTube not authenticated - videos will be downloaded only"] } ::
        (runLoop cfg env ms cache
          { status := "processing", current := 0, total := ms.length
            messages := ["YouTube not authenticated - videos will be downloaded only"] }
          0).snaps ++
        [{ (runLoop cfg env ms cache
            { status := "processing", current := 0, total := ms.length
              messages := ["YouTube not authenticated - videos will be downloaded only"] }
            0).final with status := "completed" }],
       { (runLoop cfg env ms cache
          { status := "processing", current := 0, total := ms.length
            messages := ["YouTube not authenticated - videos will be downloaded only"] }
          0).final with status := "completed" },
       (runLoop cfg env ms cache
          { status := "processing", current := 0, total := ms.length
            messages := ["YouTube not authenticated - videos will be downloaded only"] }
          0).cache,
       (runLoop cfg env ms cache
          { status := "processing", current := 0, total := ms.length
            messages := ["YouTube not authenticated - videos will be downloaded only"] }
          0).steps⟩ := by
  unfold process_matches_background
  rw [h]
  dsimp only
  rw [if_neg (by simp [hyt])]
  exact rfl

/-- The final job state of the loop only ever appends to the message
list it started from. -/
lemma runLoop_final_messages (cfg : Config) (env : RunEnv) :
    ∀ (ms : List MatchCase) (cache : List CachedVideo) (s : JobState) (i : Nat),
      ∃ tail, (runLoop cfg env ms cache s i).final.messages
        = s.messages ++ tail := by
  intro ms
  induction ms with
  | nil =>
    intro cache s i
    exact ⟨[], by simp [runLoop]⟩
  | cons m rest ih =>
    intro cache s i
    simp only [runLoop]
    obtain ⟨tail, htail⟩ := ih (processOneMatch cfg env cache m).cache
      (afterMsgs { s with current := i + 1 }
        (processOneMatch cfg env cache m).messages) (i + 1)
    refine ⟨(processOneMatch cfg env cache m).messages ++ tail, ?_⟩
    rw [htail]
    show ({ s with current := i + 1 } : JobState).messages ++
        (processOneMatch cfg env cache m).messages ++ tail
      = s.messages ++ ((processOneMatch cfg env cache m).messages ++ tail)
    show s.messages ++ (processOneMatch cfg env cache m).messages ++ tail
      = s.messages ++ ((processOneMatch cfg env cache m).messages ++ tail)
    rw [List.append_assoc]

/-- When YouTube is not authenticated, no iteration attempts an
upload. -/
lemma processOneMatch_no_youtube_no_upload (cfg : Config) (env : RunEnv)
    (cache : List CachedVideo) (m : MatchCase)
    (hyt : env.yt.serviceAvailable = false) :
    (processOneMatch cfg env cache m).uploadAttempted = false := by
  unfold processOneMatch
  rw [if_neg (by simp [hyt])]
  unfold processFiles
  split
  · rfl
  · split
    · rfl
    · split
      · rfl
      · rw [if_neg (by simp [hyt])]

lemma runLoop_no_youtube_no_upload (cfg : Config) (env : RunEnv)
    (hyt : env.yt.serviceAvailable = false) :
    ∀ (ms : List MatchCase) (cache : List CachedVideo) (s : JobState) (i : Nat),
      ∀ st ∈ (runLoop cfg env ms cache s i).steps,
        st.uploadAttempted = false := by
  intro ms
  induction ms with
  | nil =>
    intro cache s i st hst
    simp [runLoop] at hst
  | cons m rest ih =>
    intro cache s i st hst
    simp only [runLoop] at hst
    rcases List.mem_cons.mp hst with rfl | hst
    · exact processOneMatch_no_youtube_no_upload cfg env cache m hyt
    · exact ih _ _ _ st hst

/-- C2 as stated is false for the Publish Target: a run whose Zoom
token is obtained but whose YouTube service is unavailable completes
(status "completed", not "error"), merely logging that uploads are
skipped. -/
theorem C2_counterexample :
    (process_matches_background cfgOn envNoYt [] [mTrivial]).final.status
      = "completed" ∧
    (process_matches_background cfgOn envNoYt [] [mTrivial]).final.status
      ≠ "error" ∧
    "YouTube not authenticated - videos will be downloaded only" ∈
      (process_matches_background cfgOn envNoYt [] [mTrivial]).final.messages := by
  refine ⟨rfl, by decide, ?_⟩
  decide

/-- C2 amended: only a Recording Source (Zoom) credential failure is
fatal — it aborts before any match and sets status "error"; a Publish
Target (YouTube) credential failure merely logs an informational
message, disables uploads for the whole run, and the run ends
"completed". -/
theorem C2_zoom_fatal_youtube_not (cfg : Config) (env : RunEnv)
    (cache : List CachedVideo) (ms : List MatchCase) :
    (env.zoomToken = none →
      (process_matches_background cfg env cache ms).final =
        { status := "error", current := 0, total := ms.length
          messages := ["Failed to get Zoom access token"] } ∧
      (process_matches_background cfg env cache ms).steps = []) ∧
    (∀ t, env.zoomToken = some t → env.yt.serviceAvailable = false →
      (process_matches_background cfg env cache ms).final.status = "completed" ∧
      "YouTube not authenticated - videos will be downloaded only" ∈
        (process_matches_background cfg env cache ms).final.messages ∧
      ∀ st ∈ (process_matches_background cfg env cache ms).steps,
        st.uploadAttempted = false) := by
  constructor
  · intro h
    rw [pmb_no_token cfg env cache ms h]
    exact ⟨rfl, rfl⟩
  · intro t h hyt
    rw [pmb_no_youtube cfg env cache ms t h hyt]
    refine ⟨rfl, ?_, ?_⟩
    · show "YouTube not authenticated - videos will be downloaded only" ∈
        (runLoop cfg env ms cache
          { status := "processing", current := 0, total := ms.length
            messages := ["YouTube not authenticated - videos will be downloaded only"] }
          0).final.messages
      obtain ⟨tail, htail⟩ := runLoop_final_messages cfg env ms cache
        { status := "processing", current := 0, total := ms.length
          messages := ["YouTube not authenticated - videos will be downloaded only"] } 0
      rw [htail]
      show _ ∈ ["YouTube not authenticated - videos will be downloaded only"] ++ tail
      exact List.mem_append.mpr (Or.inl (by simp))
    · intro st hst
      exact runLoop_no_youtube_no_upload cfg env hyt ms cache _ 0 st hst

/-- Witness for C2: both hypothesis configurations instantiated
concretely. -/
theorem C2_witness :
    (envNoZoom.zoomToken = none ∧
      (process_matches_background cfgOn envNoZoom [] [mTrivial]).final =
        { status := "error", current := 0, total := 1
          messages := ["Failed to get Zoom access token"] }) ∧
    (envNoYt.zoomToken = some "tok" ∧ envNoYt.yt.serviceAvailable = false ∧
      (process_matches_background cfgOn envNoYt [] [mTrivial]).final.status
        = "completed") := by
  constructor
  · exact ⟨rfl, ((C2_zoom_fatal_youtube_not cfgOn envNoZoom [] [mTrivial]).1 rfl).1⟩
  · exact ⟨rfl, rfl,
      ((C2_zoom_fatal_youtube_not cfgOn envNoYt [] [mTrivial]).2 "tok" rfl rfl).1⟩

/-- With a Zoom token, a run's final `current` equals the number of
confirmed matches, whatever happened to the individual matches. -/
lemma pmb_final_current (cfg : Config) (env : RunEnv)
    (cache : List CachedVideo) (ms : List MatchCase) (t : String)
    (h : env.zoomToken = some t) :
    (process_matches_background cfg env cache ms).final.current = ms.length := by
  unfold process_matches_background
  rw [h]
  dsimp only
  split
  · show (runLoop cfg env ms cache
        { status := "processing", current := 0, total := ms.length
          messages := [] } 0).final.current = ms.length
    have := (runLoop_spec cfg env ms cache
      { status := "processing", current := 0, total := ms.length
        messages := [] } 0 rfl).2.1
    omega
  · show (runLoop cfg env ms cache
        { status := "processing", current := 0, total := ms.length
          messages := ["YouTube not authenticated - videos will be downloaded only"] }
        0).final.current = ms.length
    have := (runLoop_spec cfg env ms cache
      { status := "processing", current := 0, total := ms.length
        messages := ["YouTube not authenticated - videos will be downloaded only"] }
      0 rfl).2.1
    omega

/-- C6: a confirmed match whose duplicate check finds an existing video
(cached or remote) only logs the "already exists" message carrying the
published identifier — no download and no upload are attempted — and
the match still counts towards the run's progress. -/
theorem C6_duplicate_found_skips_but_counts (cfg : Config) (env : RunEnv)
    (cache : List CachedVideo) (m : MatchCase) (v : FoundVideo)
    (hyt : env.yt.serviceAvailable = true)
    (hfound : (check_existing_video cfg env.yt cache (eventTitleOf m)).result
      = some v) :
    processOneMatch cfg env cache m =
      { messages := ["Processing: " ++ eventTitleOf m,
          "Video already exists on YouTube: " ++ eventTitleOf m ++ " ("
            ++ v.video_id ++ ")"]
        downloadAttempted := false, uploadAttempted := false
        cache := (check_existing_video cfg env.yt cache (eventTitleOf m)).cache } ∧
    (∀ (pre post : List MatchCase) (cache0 : List CachedVideo) (t : String),
      env.zoomToken = some t →
      (process_matches_background cfg env cache0 (pre ++ m :: post)).final.current
        = (pre ++ m :: post).length) := by
  constructor
  · unfold processOneMatch
    rw [hyt, if_pos rfl, hfound]
    exact rfl
  · intro pre post cache0 t htok
    exact pmb_final_current cfg env cache0 (pre ++ m :: post) t htok

/-- Witness for C6 (the spec's Scenario A): one match whose title hits
a fresh cache entry. -/
theorem C6_witness :
    envFull.yt.serviceAvailable = true ∧
    (check_existing_video cfgOn envFull.yt [sampleCached]
        (eventTitleOf mBoard)).result =
      some { video_id := "vid123", title := "Board Meeting"
             url := "https://www.youtube.com/watch?v=vid123"
             published_at := 100, cached := true } ∧
    processOneMatch cfgOn envFull [sampleCached] mBoard =
      { messages := ["Processing: Board Meeting",
          "Video already exists on YouTube: Board Meeting (vid123)"]
        downloadAttempted := false, uploadAttempted := false
        cache := [sampleCached] } ∧
    (process_matches_background cfgOn envFull [] [mBoard]).final.current = 1 := by
  have h := C6_duplicate_found_skips_but_counts cfgOn envFull [sampleCached]
    mBoard
    { video_id := "vid123", title := "Board Meeting"
      url := "https://www.youtube.com/watch?v=vid123"
      published_at := 100, cached := true }
    rfl (by decide)
  refine ⟨rfl, by decide, ?_, ?_⟩
  · exact h.1
  · exact h.2 [] [] [] "tok" rfl

/-! ### Routes (C1, C7) -/

/-- C7: submitting an empty confirmed-match list (or a body with no
`matches` key at all) is rejected synchronously with a 400 error before
a session id is generated and before a worker thread is started. -/
theorem C7_empty_submit_rejected (freshId : String) :
    process_matches (some []) freshId =
      { response := .err 400 "No matches provided"
        sessionIdGenerated := false, workerStarted := false } ∧
    process_matches none freshId =
      { response := .err 400 "No matches provided"
        sessionIdGenerated := false, workerStarted := false } :=
  ⟨rfl, rfl⟩

/-- C1 claims the events-for-a-date lookup fails with
`UpstreamUnavailable` when the Event Source is unreachable.  In the
code the request exception is swallowed: the route answers 200 with an
empty event list. -/
theorem C1_counterexample :
    (get_events_route cfgOn envFresh [] (some "2024-05-01") (some "org1")
      true (.exn "connection refused")).1 = .ok [] ∧
    ((get_events_route cfgOn envFresh [] (some "2024-05-01") (some "org1")
      true (.exn "connection refused")).1).isErr = false :=
  ⟨rfl, rfl⟩

/-- C1 amended: when the Event Source request raises or returns a
non-200 status, `get_events_by_date` returns the empty list and the
events route responds with success carrying an empty list — no error is
surfaced to the caller (and the Recording Source is not consulted by
this route at all). -/
theorem C1_unreachable_yields_empty_success (cfg : Config) (yt : YTEnv)
    (cache : List CachedVideo) (d o emsg : String) (status : Nat)
    (body : List EbEvent) :
    get_events_by_date (.exn emsg) = [] ∧
    (status ≠ 200 → get_events_by_date (.resp status body) = []) ∧
    (get_events_route cfg yt cache (some d) (some o) true
      (.exn emsg)).1 = .ok [] ∧
    ((get_events_route cfg yt cache (some d) (some o) true
      (.exn emsg)).1).isErr = false := by
  have hroute : (get_events_route cfg yt cache (some d) (some o) true
      (.exn emsg)).1 = .ok [] := by
    unfold get_events_route
    dsimp only
    rw [if_pos rfl]
    cases hs : yt.serviceAvailable with
    | true => exact rfl
    | false => exact rfl
  refine ⟨rfl, ?_, hroute, by rw [hroute]; rfl⟩
  intro h
  unfold get_events_by_date
  show (if status = 200 then body else []) = []
  rw [if_neg h]

/-- Witness for C1's amended statement at a concrete non-200 status and
a concrete connection failure. -/
theorem C1_witness :
    ((503 : Nat) ≠ 200 ∧
      get_events_by_date (.resp 503 [{ id := "e1", nameText := some "X" }]) = []) ∧
    get_events_by_date (.exn "connection refused") = [] ∧
    (get_events_route cfgOn envFresh [] (some "2024-05-01") (some "org1")
      true (.exn "connection refused")).1 = .ok [] := by
  have h := C1_unreachable_yields_empty_success cfgOn envFresh []
    "2024-05-01" "org1" "connection refused" 503
    [{ id := "e1", nameText := some "X" }]
  exact ⟨⟨by decide, h.2.1 (by decide)⟩, h.1, h.2.2.1⟩

/-! ### Title normalizer claim (C3) -/

/-- C3 claims normalize strips every character that is not a letter,
digit, or whitespace.  Python regex `\\w` also keeps underscores: on
"a_b" the code keeps the underscore where the claimed contract would
drop it. -/
theorem C3_counterexample :
    normalize_title_for_matching "a_b" = "a_b" ∧
    normalizeSpecClaim "a_b" = "ab" ∧
    normalize_title_for_matching "a_b" ≠ normalizeSpecClaim "a_b" := by
  exact ⟨by decide, by decide, by decide⟩

/-- C3 amended: the normalizer lower-cases, strips every character that
is not a letter, digit, underscore, or whitespace, collapses whitespace
runs to a single space and trims (stated as equality with the
independent words-join formulation); both copies of the function agree,
and empty input yields the empty key. -/
theorem C3_normalize_amended :
    (∀ title : String,
      normalize_title_for_matching title = normalizeSpecAmended title) ∧
    (∀ title : String,
      YouTubeVideo.normalize_title title = normalize_title_for_matching title) ∧
    normalize_title_for_matching "" = "" := by
  refine ⟨?_, fun _ => rfl, rfl⟩
  intro t
  unfold normalize_title_for_matching normalizeSpecAmended
  by_cases h : t = ""
  · rw [if_pos h, if_pos h]
  · rw [if_neg h, if_neg h]
    exact congrArg String.mk (pyStrip_collapse_eq_joinWords _)

end ZoomEB
